import Mathlib

/-!
Verification of the priority-ordered task registry and timeline projection
of the todo application (`todo.store.ts`, `app.ts`).

Modelling conventions:
* Numeric inputs are modelled as integers (`Int`). Every numeric write path
  in the store rounds via `Math.round`, which is the identity on integers,
  so the rounding calls disappear; the `Number.isFinite` fallback branches
  (for `NaN`/infinite doubles) are outside the model.
* `string.trim()` is `jsTrim` (drop leading and trailing whitespace from
  the character list); `localeCompare` is modelled as the lexicographic
  order `strLt` on code points.
* The JavaScript `Map` built from task ids (insertion order preserved,
  `set` on an existing key overwrites in place) is modelled as a list with
  `insertById`; `forEach` loops that mutate are explicit recursions.
* `makeId()` and `Date.now()` are external collaborators; operations that
  consume them take the produced value as an argument.
-/

namespace Todo

/-- JavaScript `string.trim()`: remove leading and trailing whitespace. -/
def jsTrim (s : String) : String :=
  ⟨((s.data.dropWhile Char.isWhitespace).reverse.dropWhile Char.isWhitespace).reverse⟩

/-- Lexicographic code-point order on character lists. -/
def charsLt : List Char → List Char → Bool
  | [], [] => false
  | [], _ :: _ => true
  | _ :: _, [] => false
  | a :: as, b :: bs =>
    if a.val < b.val then true
    else if b.val < a.val then false
    else charsLt as bs

/-- `a.localeCompare(b) < 0`, modelled as lexicographic code-point order. -/
def strLt (a b : String) : Bool := charsLt a.data b.data

/-- Task status: the three literal values of `TaskStatus` in `todo.store.ts`. -/
inductive TaskStatus
  | uncompleted
  | failed
  | completed
deriving DecidableEq, Repr

/-- A stored task record (`TodoTask` in `todo.store.ts`). -/
structure TodoTask where
  id : String
  title : String
  description : Option String
  priority : Int
  estimateMinutes : Option Int
  status : TaskStatus
  isRest : Bool
  createdAt : Int
deriving DecidableEq, Repr

/-- A creation draft (`TodoDraft`): `estimateMinutes` may be a number, or
`null`/`undefined` (both modelled as `none`, which is how `normalizeMinutes`
treats them). -/
structure TodoDraft where
  title : String
  description : Option String
  priority : Int
  estimateMinutes : Option Int
  status : TaskStatus
  isRest : Bool
deriving DecidableEq, Repr

/-- An update patch (`Partial<TodoDraft>`): each field is `none` when absent.
For `estimateMinutes`, `some none` models an explicitly present `null`
(`patch.estimateMinutes !== undefined` holds but `normalizeMinutes`
receives `null`). -/
structure TodoPatch where
  title : Option String := none
  description : Option String := none
  priority : Option Int := none
  estimateMinutes : Option (Option Int) := none
  status : Option TaskStatus := none
  isRest : Option Bool := none
deriving DecidableEq, Repr

/-- `DEFAULT_WORK_MINUTES`. -/
def DEFAULT_WORK_MINUTES : Int := 60

/-- `DEFAULT_REST_MINUTES`. -/
def DEFAULT_REST_MINUTES : Int := 15

/-- `MIN_PRIORITY`. -/
def MIN_PRIORITY : Int := 1

/-- `normalizePriority` in `todo.store.ts`: `max(1, Math.round(v))` on an
integer input. -/
def normalizePriority (priority : Int) : Int :=
  max MIN_PRIORITY priority

/-- `normalizeMinutes` in `todo.store.ts`: `null`/`undefined` stay unset;
a non-positive number becomes the default for the kind; otherwise keep. -/
def normalizeMinutes (value : Option Int) (isRest : Bool) : Option Int :=
  match value with
  | none => none
  | some v =>
    if v ≤ 0 then some (if isRest then DEFAULT_REST_MINUTES else DEFAULT_WORK_MINUTES)
    else some v

/-- `getTaskMinutes`: the effective duration (`estimateMinutes` when present
and positive, else the kind default). -/
def getTaskMinutes (task : TodoTask) : Int :=
  match task.estimateMinutes with
  | some m =>
    if 0 < m then m else if task.isRest then DEFAULT_REST_MINUTES else DEFAULT_WORK_MINUTES
  | none => if task.isRest then DEFAULT_REST_MINUTES else DEFAULT_WORK_MINUTES

/-- `shiftForInsert`: every task with priority ≥ the insertion priority is
shifted up by one. -/
def shiftForInsert (tasks : List TodoTask) (priority : Int) : List TodoTask :=
  tasks.map fun task =>
    if priority ≤ task.priority then { task with priority := task.priority + 1 } else task

/-- `addTask`: normalise the draft fields, shift existing priorities, and
append the new record (`newId` and `now` stand for `makeId()` and
`Date.now()`). -/
def addTask (tasks : List TodoTask) (draft : TodoDraft) (newId : String) (now : Int) :
    List TodoTask :=
  let title :=
    if jsTrim draft.title = "" then (if draft.isRest then "Rest time" else "Untitled task")
    else jsTrim draft.title
  let priority := normalizePriority draft.priority
  let task : TodoTask :=
    { id := newId
      title := title
      description :=
        match draft.description with
        | none => none
        | some d => if jsTrim d = "" then none else some (jsTrim d)
      priority := priority
      estimateMinutes := normalizeMinutes draft.estimateMinutes draft.isRest
      status := draft.status
      isRest := draft.isRest
      createdAt := now }
  shiftForInsert tasks priority ++ [task]

/-- `shiftForUpdate`: when the patch carries a priority and the target id is
found, shift the other tasks lying between the old and new priority. -/
def shiftForUpdate (tasks : List TodoTask) (id : String) (patch : TodoPatch) :
    List TodoTask :=
  match tasks.find? (fun task => task.id = id), patch.priority with
  | some target, some p =>
    let newPriority := normalizePriority p
    let oldPriority := target.priority
    if newPriority = oldPriority then tasks
    else if oldPriority < newPriority then
      tasks.map fun task =>
        if task.id = id then task
        else if oldPriority < task.priority ∧ task.priority ≤ newPriority then
          { task with priority := task.priority - 1 }
        else task
    else
      tasks.map fun task =>
        if task.id = id then task
        else if newPriority ≤ task.priority ∧ task.priority < oldPriority then
          { task with priority := task.priority + 1 }
        else task
  | _, _ => tasks

/-- `updateTask`: run `shiftForUpdate`, then patch the matching record field
by field, defaulting absent fields to the current values. An empty trimmed
title patch falls back to `Rest time` for rest tasks and to the existing
title otherwise. -/
def updateTask (tasks : List TodoTask) (id : String) (patch : TodoPatch) :
    List TodoTask :=
  (shiftForUpdate tasks id patch).map fun task =>
    if task.id ≠ id then task
    else
      let isRest := patch.isRest.getD task.isRest
      let title :=
        match patch.title with
        | some s =>
          if jsTrim s = "" then (if isRest then "Rest time" else task.title) else jsTrim s
        | none => task.title
      let description :=
        match patch.description with
        | some d => if jsTrim d = "" then none else some (jsTrim d)
        | none => task.description
      let estimateMinutes :=
        match patch.estimateMinutes with
        | some v => normalizeMinutes v isRest
        | none => task.estimateMinutes
      let priority :=
        match patch.priority with
        | some p => normalizePriority p
        | none => task.priority
      { task with
        title := title
        description := description
        priority := priority
        estimateMinutes := estimateMinutes
        status := patch.status.getD task.status
        isRest := isRest }

/-- `removeTask`: drop the task with the given id. -/
def removeTask (tasks : List TodoTask) (id : String) : List TodoTask :=
  tasks.filter fun task => task.id ≠ id

/-- One step of the `order.forEach((id, index) => ...)` loop in
`reorderTasks` (and of the reassignment loop in
`normalizePrioritiesIfNeeded`): the task with the matching id gets the
given priority. -/
def setPriorityById (tasks : List TodoTask) (id : String) (p : Int) : List TodoTask :=
  tasks.map fun task => if task.id = id then { task with priority := p } else task

/-- The whole `forEach` loop: position `index + 1` is assigned left to
right, starting at index `i`. -/
def applyOrder (i : Nat) (tasks : List TodoTask) : List String → List TodoTask
  | [] => tasks
  | id :: rest => applyOrder (i + 1) (setPriorityById tasks id ((i : Int) + 1)) rest

/-- `reorderTasks`: reject a wrong-length list, and a live set with
duplicate ids (which is what `byId.size !== tasks.length` detects);
otherwise assign `index + 1` to each task named in the list. -/
def reorderTasks (tasks : List TodoTask) (order : List String) : List TodoTask :=
  if order.length ≠ tasks.length then tasks
  else if ¬ (tasks.map (·.id)).Nodup then tasks
  else applyOrder 0 tasks order

/-- `setStartMinutes`: clamp the input to `[0, 1439]`. -/
def setStartMinutes (minutes : Int) : Int :=
  min (24 * 60 - 1) (max 0 minutes)

/-- The sort comparator shared by `sortedTasks` and
`normalizePrioritiesIfNeeded`: ascending `(priority, title, createdAt)`,
as a boolean "comparator ≤ 0" relation. -/
def taskLE (a b : TodoTask) : Bool :=
  if a.priority = b.priority then
    (if a.title = b.title then a.createdAt ≤ b.createdAt else strLt a.title b.title)
  else a.priority < b.priority

/-- `sortedTasks`: the live set sorted by the comparator (JavaScript
`Array.prototype.sort` is stable, as is `List.mergeSort`). -/
def sortedTasks (tasks : List TodoTask) : List TodoTask :=
  tasks.mergeSort taskLE

/-- `Map.set` on the id-keyed JavaScript map: overwrite in place when the
key exists, else append. -/
def insertById (m : List TodoTask) (t : TodoTask) : List TodoTask :=
  if m.any fun x => x.id = t.id then m.map (fun x => if x.id = t.id then t else x)
  else m ++ [t]

/-- `new Map(tasks.map((task) => [task.id, {...task}]))`. -/
def buildById (tasks : List TodoTask) : List TodoTask :=
  tasks.foldl insertById []

/-- `normalizePrioritiesIfNeeded`: if no two tasks share a priority, return
the set unchanged; otherwise sort by the comparator and reassign
`priority = index + 1` through the id-keyed map. -/
def normalizePrioritiesIfNeeded (tasks : List TodoTask) : List TodoTask :=
  if (tasks.map (·.priority)).Nodup then tasks
  else applyOrder 0 (buildById tasks) ((tasks.mergeSort taskLE).map (·.id))

/-- `totalMinutes`: sum of effective durations. -/
def totalMinutes (tasks : List TodoTask) : Int :=
  (tasks.map getTaskMinutes).sum

/-- A rendered timeline segment (`TimelineSegment` in `app.ts`); `left` and
`width` are percentages of the 24-hour axis, kept exact as rationals. -/
structure TimelineSegment where
  id : String
  title : String
  label : String
  isRest : Bool
  status : TaskStatus
  left : Rat
  width : Rat
  durationMinutes : Int
  delay : String
deriving DecidableEq, Repr

/-- The day length used by the projection (`const dayMinutes = 24 * 60`). -/
def dayMinutes : Int := 24 * 60

/-- The body of the `tasks.forEach` loop in `buildTimelineSegments`: the
segment pushed for one task given its index and the cursor at its start,
or `none` when the visibility test fails. -/
def segmentOfTask (index : Nat) (task : TodoTask) (start : Int) : Option TimelineSegment :=
  let duration := getTaskMinutes task
  let clampedStart := max 0 (min dayMinutes start)
  let clampedEnd := max 0 (min dayMinutes (start + duration))
  let visibleMinutes := clampedEnd - clampedStart
  if 0 < visibleMinutes ∧ start < dayMinutes then
    some
      { id := task.id
        title := task.title
        label := if task.isRest then "Rest" else task.title
        isRest := task.isRest
        status := task.status
        left := (clampedStart : Rat) / (dayMinutes : Rat) * 100
        width := (visibleMinutes : Rat) / (dayMinutes : Rat) * 100
        durationMinutes := duration
        delay := toString (index * 80) ++ "ms" }
  else none

/-- The `tasks.forEach` sweep: emit the segment (when any) and advance the
cursor by the full unclipped duration. -/
def timelineGo (index : Nat) (cursor : Int) : List TodoTask → List TimelineSegment
  | [] => []
  | task :: rest =>
    (segmentOfTask index task cursor).toList ++
      timelineGo (index + 1) (cursor + getTaskMinutes task) rest

/-- `buildTimelineSegments` in `app.ts`: single forward sweep from the
start offset. -/
def buildTimelineSegments (tasks : List TodoTask) (startMinutes : Int) :
    List TimelineSegment :=
  timelineGo 0 startMinutes tasks

/-- Sum of the effective durations of the first `i` tasks: the cursor when
the `i`-th task is processed is the start offset plus this. -/
def sumDurBefore (tasks : List TodoTask) (i : Nat) : Int :=
  ((tasks.take i).map getTaskMinutes).sum

/-- `overbooked` in `app.ts`. -/
def overbooked (tasks : List TodoTask) : Bool :=
  24 * 60 < totalMinutes tasks

/-- A registry mutation, for stating invariants over operation sequences.
`add` carries the externally generated id and timestamp. -/
inductive Op
  | add (draft : TodoDraft) (newId : String) (now : Int)
  | update (id : String) (patch : TodoPatch)
  | reorder (order : List String)
deriving DecidableEq, Repr

/-- Apply one mutation to the live set. -/
def applyOp (tasks : List TodoTask) : Op → List TodoTask
  | .add draft newId now => addTask tasks draft newId now
  | .update id patch => updateTask tasks id patch
  | .reorder order => reorderTasks tasks order

/-- Run a mutation sequence from the initially empty registry. -/
def runOps (ops : List Op) : List TodoTask :=
  ops.foldl applyOp []

/-! ### Concrete fixtures for witnesses and counterexamples -/

/-- A work task with id `a`, title `A`, priority 1. -/
def taskA : TodoTask :=
  { id := "a", title := "A", description := none, priority := 1,
    estimateMinutes := none, status := .uncompleted, isRest := false, createdAt := 0 }

/-- A work task with id `b`, title `B`, priority 2. -/
def taskB : TodoTask :=
  { id := "b", title := "B", description := none, priority := 2,
    estimateMinutes := none, status := .uncompleted, isRest := false, createdAt := 0 }

/-- A draft that creates `taskA` (id and timestamp supplied externally). -/
def draftA : TodoDraft :=
  { title := "A", description := none, priority := 1, estimateMinutes := none,
    status := .uncompleted, isRest := false }

/-- A draft that creates `taskB`. -/
def draftB : TodoDraft :=
  { title := "B", description := none, priority := 2, estimateMinutes := none,
    status := .uncompleted, isRest := false }

/-- A work task whose title is not the untitled placeholder. -/
def taskKeep : TodoTask :=
  { id := "t1", title := "Keep", description := none, priority := 1,
    estimateMinutes := none, status := .uncompleted, isRest := false, createdAt := 0 }

/-- A rest draft with an explicit zero estimate. -/
def draftR : TodoDraft :=
  { title := "R", description := none, priority := 1, estimateMinutes := some 0,
    status := .uncompleted, isRest := true }

/-- The task created from `draftR`: the rest default 15 is stored. -/
def taskR : TodoTask :=
  { id := "r", title := "R", description := none, priority := 1,
    estimateMinutes := some 15, status := .uncompleted, isRest := true, createdAt := 0 }

/-- Work task with priority 1 (id `1`, title `T1`). -/
def task1 : TodoTask :=
  { id := "1", title := "T1", description := none, priority := 1,
    estimateMinutes := none, status := .uncompleted, isRest := false, createdAt := 0 }

/-- Work task with priority 2 (id `2`, title `T2`). -/
def task2 : TodoTask :=
  { id := "2", title := "T2", description := none, priority := 2,
    estimateMinutes := none, status := .uncompleted, isRest := false, createdAt := 0 }

/-- Work task with priority 3 (id `3`, title `T3`). -/
def task3 : TodoTask :=
  { id := "3", title := "T3", description := none, priority := 3,
    estimateMinutes := none, status := .uncompleted, isRest := false, createdAt := 0 }

/-- A draft asking for priority 2. -/
def draftP2 : TodoDraft :=
  { title := "New", description := none, priority := 2, estimateMinutes := none,
    status := .uncompleted, isRest := false }

/-- Work task with priority 4 (id `4`, title `T4`). -/
def task4 : TodoTask :=
  { id := "4", title := "T4", description := none, priority := 4,
    estimateMinutes := none, status := .uncompleted, isRest := false, createdAt := 0 }

/-- Work task `A5` at priority 5 (id `a5`). -/
def taskA5 : TodoTask :=
  { id := "a5", title := "A5", description := none, priority := 5,
    estimateMinutes := none, status := .uncompleted, isRest := false, createdAt := 0 }

/-- Timeline fixture: work task at priority 1, default duration 60. -/
def tlW1 : TodoTask :=
  { id := "w1", title := "W1", description := none, priority := 1,
    estimateMinutes := none, status := .uncompleted, isRest := false, createdAt := 0 }

/-- Timeline fixture: rest task at priority 2, default duration 15. -/
def tlR : TodoTask :=
  { id := "r", title := "R", description := none, priority := 2,
    estimateMinutes := none, status := .uncompleted, isRest := true, createdAt := 0 }

/-- Timeline fixture: work task at priority 3, default duration 60. -/
def tlW2 : TodoTask :=
  { id := "w2", title := "W2", description := none, priority := 3,
    estimateMinutes := none, status := .uncompleted, isRest := false, createdAt := 0 }

/-- Expected segment `[480, 540)` for `tlW1`. -/
def tlSeg1 : TimelineSegment :=
  { id := "w1", title := "W1", label := "W1", isRest := false, status := .uncompleted,
    left := ((480 : Int) : Rat) / ((1440 : Int) : Rat) * 100,
    width := ((60 : Int) : Rat) / ((1440 : Int) : Rat) * 100,
    durationMinutes := 60, delay := "0ms" }

/-- Expected segment `[540, 555)` for the rest task `tlR`. -/
def tlSeg2 : TimelineSegment :=
  { id := "r", title := "R", label := "Rest", isRest := true, status := .uncompleted,
    left := ((540 : Int) : Rat) / ((1440 : Int) : Rat) * 100,
    width := ((15 : Int) : Rat) / ((1440 : Int) : Rat) * 100,
    durationMinutes := 15, delay := "80ms" }

/-- Expected segment `[555, 615)` for `tlW2`. -/
def tlSeg3 : TimelineSegment :=
  { id := "w2", title := "W2", label := "W2", isRest := false, status := .uncompleted,
    left := ((555 : Int) : Rat) / ((1440 : Int) : Rat) * 100,
    width := ((60 : Int) : Rat) / ((1440 : Int) : Rat) * 100,
    durationMinutes := 60, delay := "160ms" }

/-- Restored task titled `B` with duplicate priority 1 (id `db`). -/
def taskDupB : TodoTask :=
  { id := "db", title := "B", description := none, priority := 1,
    estimateMinutes := none, status := .uncompleted, isRest := false, createdAt := 0 }

/-- Restored task titled `A` with duplicate priority 1 (id `da`). -/
def taskDupA : TodoTask :=
  { id := "da", title := "A", description := none, priority := 1,
    estimateMinutes := none, status := .uncompleted, isRest := false, createdAt := 0 }

/-! ### Helper lemmas -/

/-- Structure eta: a task equals the priority update of itself. -/
lemma task_eta (x : TodoTask) : { x with priority := x.priority } = x := rfl

/-- When the patch carries no priority, `shiftForUpdate` returns the tasks
unchanged. -/
lemma shiftForUpdate_of_priority_none (tasks : List TodoTask) (id : String)
    (patch : TodoPatch) (hp : patch.priority = none) :
    shiftForUpdate tasks id patch = tasks := by
  unfold shiftForUpdate
  rcases hf : tasks.find? (fun task => task.id = id) with _ | target <;> simp [hf, hp]

/-- `shiftForUpdate` only rewrites priorities: the task at any index keeps
all its other fields. -/
lemma shiftForUpdate_idx (tasks : List TodoTask) (id : String) (patch : TodoPatch)
    (i : Nat) (t : TodoTask) (ht : tasks[i]? = some t) :
    ∃ p, (shiftForUpdate tasks id patch)[i]? = some { t with priority := p } := by
  unfold shiftForUpdate
  rcases hf : tasks.find? (fun task => task.id = id) with _ | target
  · exact ⟨t.priority, by simp [hf, ht, task_eta]⟩
  · rcases hp : patch.priority with _ | p
    · exact ⟨t.priority, by simp [hf, hp, ht, task_eta]⟩
    · simp only [hf, hp]
      split
      · exact ⟨t.priority, by simp [ht, task_eta]⟩
      · split
        · by_cases hid : t.id = id
          · exact ⟨t.priority, by simp [List.getElem?_map, ht, ← hid]⟩
          · by_cases hr : target.priority < t.priority ∧ t.priority ≤ normalizePriority p
            · exact ⟨t.priority - 1, by simp [List.getElem?_map, ht, hid, hr]⟩
            · exact ⟨t.priority, by simp [List.getElem?_map, ht, hid, hr, task_eta]⟩
        · by_cases hid : t.id = id
          · exact ⟨t.priority, by simp [List.getElem?_map, ht, ← hid]⟩
          · by_cases hr : normalizePriority p ≤ t.priority ∧ t.priority < target.priority
            · exact ⟨t.priority + 1, by simp [List.getElem?_map, ht, hid, hr]⟩
            · exact ⟨t.priority, by simp [List.getElem?_map, ht, hid, hr, task_eta]⟩

/-! ### Claims -/

/-- C5 counterexample: patching the non-rest task titled `Keep` with a
blank title stores `Keep` again, not `Untitled task`. -/
theorem update_blank_title_keeps_existing :
    (updateTask [taskKeep] "t1" { title := some "   " }).map (·.title) = ["Keep"] ∧
    ("Keep" : String) ≠ "Untitled task" := by
  decide

/-- C5 (amended): an empty-after-trim title patch stores `Rest time` when
the patched `isRest` flag is true, and keeps the task's existing title
otherwise (the `Untitled task` placeholder is used on create and on load,
not on update). -/
theorem update_blank_title (tasks : List TodoTask) (id : String) (patch : TodoPatch)
    (i : Nat) (t : TodoTask) (s : String) (ht : tasks[i]? = some t) (hid : t.id = id)
    (hs : patch.title = some s) (htrim : jsTrim s = "") :
    ((updateTask tasks id patch)[i]?).map (·.title) =
      some (if patch.isRest.getD t.isRest then "Rest time" else t.title) := by
  obtain ⟨p, hp⟩ := shiftForUpdate_idx tasks id patch i t ht
  unfold updateTask
  rw [List.getElem?_map, hp]
  simp [hid, hs, htrim]

/-- Witness for the amended C5: a blank title patch that also flips the
task to rest stores `Rest time`; one that does not keeps `Keep`. -/
theorem update_blank_title_witness :
    ((updateTask [taskKeep] "t1" { title := some " ", isRest := some true })[0]?).map
      (·.title) = some "Rest time" ∧
    ((updateTask [taskKeep] "t1" { title := some " " })[0]?).map (·.title) =
      some "Keep" := by
  constructor
  · have h := update_blank_title [taskKeep] "t1"
      { title := some " ", isRest := some true } 0 taskKeep " "
      (by decide) (by decide) (by decide) (by decide)
    simpa using h
  · have h := update_blank_title [taskKeep] "t1" { title := some " " } 0 taskKeep " "
      (by decide) (by decide) (by decide) (by decide)
    simpa [taskKeep] using h

/-- C10: the kind-specific duration default is baked in at write time:
adding with a non-positive estimate stores the current kind's default
explicitly; an update that does not touch `estimateMinutes` keeps the stored
value; and a stored positive estimate is the effective duration regardless
of the current `isRest` flag. -/
theorem estimate_default_baked_in :
    (∀ (tasks : List TodoTask) (draft : TodoDraft) (newId : String) (now : Int) (v : Int),
      draft.estimateMinutes = some v → v ≤ 0 →
      ((addTask tasks draft newId now).getLast?).map (·.estimateMinutes) =
        some (some (if draft.isRest then DEFAULT_REST_MINUTES else DEFAULT_WORK_MINUTES))) ∧
    (∀ (tasks : List TodoTask) (id : String) (patch : TodoPatch) (i : Nat) (t : TodoTask),
      tasks[i]? = some t → patch.estimateMinutes = none → patch.priority = none →
      ((updateTask tasks id patch)[i]?).map (·.estimateMinutes) = some t.estimateMinutes) ∧
    (∀ (t : TodoTask) (m : Int), t.estimateMinutes = some m → 0 < m →
      getTaskMinutes t = m) := by
  refine ⟨?_, ?_, ?_⟩
  · intro tasks draft newId now v hv hle
    simp only [addTask]
    rw [List.getLast?_concat]
    simp [normalizeMinutes, hv, hle]
  · intro tasks id patch i t ht hest hpri
    unfold updateTask
    rw [shiftForUpdate_of_priority_none tasks id patch hpri, List.getElem?_map, ht]
    by_cases hid : t.id = id <;> simp [hid, hest]
  · intro t m hm h0
    unfold getTaskMinutes
    rw [hm]
    simp [h0]

/-- Witness for C10: add a rest task with estimate 0 (stores 15), then turn
it into a work task without touching the estimate — the effective duration
stays 15, not the work default 60. -/
theorem estimate_default_baked_in_witness :
    ((addTask [] draftR "r" 0).getLast?).map (·.estimateMinutes) = some (some 15) ∧
    ((updateTask [taskR] "r" { isRest := some false })[0]?).map (·.estimateMinutes) =
      some (some 15) ∧
    getTaskMinutes taskR = 15 := by
  refine ⟨?_, ?_, ?_⟩
  · have h := estimate_default_baked_in.1 [] draftR "r" 0 0 rfl (by decide)
    simpa [draftR, DEFAULT_REST_MINUTES] using h
  · have h := estimate_default_baked_in.2.1 [taskR] "r" { isRest := some false } 0 taskR
      (by decide) rfl rfl
    simpa [taskR] using h
  · exact estimate_default_baked_in.2.2 taskR 15 rfl (by decide)

/-- C9: `setStartMinutes` always stores a value in `[0, 1439]`: inputs above
the range are clamped to 1439, inputs below it to 0, and in-range inputs
are stored as given — out-of-range inputs are never rejected. -/
theorem setStartMinutes_clamped (m : Int) :
    0 ≤ setStartMinutes m ∧ setStartMinutes m ≤ 1439 ∧
    (1439 < m → setStartMinutes m = 1439) ∧
    (m < 0 → setStartMinutes m = 0) ∧
    (0 ≤ m → m ≤ 1439 → setStartMinutes m = m) := by
  unfold setStartMinutes
  omega

/-- Witness for C9 at the inputs 2000, −5 and 100. -/
theorem setStartMinutes_clamped_witness :
    setStartMinutes 2000 = 1439 ∧ setStartMinutes (-5) = 0 ∧ setStartMinutes 100 = 100 :=
  ⟨(setStartMinutes_clamped 2000).2.2.1 (by decide),
   (setStartMinutes_clamped (-5)).2.2.2.1 (by decide),
   (setStartMinutes_clamped 100).2.2.2.2 (by decide) (by decide)⟩

/-- C1 counterexample: over the live set `a` (priority 1), `b` (priority 2),
the same-length id list `["b", "x"]` misses the live id `a` and contains
the foreign id `x`, yet `reorderTasks` is not a no-op: `b` is reassigned
priority 1, which even collides with `a`. -/
theorem reorder_foreign_id_not_noop :
    reorderTasks [taskA, taskB] ["b", "x"] = [taskA, { taskB with priority := 1 }] ∧
    reorderTasks [taskA, taskB] ["b", "x"] ≠ [taskA, taskB] := by
  decide

/-- C1 (amended): `reorderTasks` is a no-op when the id list's length
differs from the live set's size, or when the live set itself contains
duplicate ids; membership and duplicates of the supplied list are not
checked. -/
theorem reorder_noop_on_guard (tasks : List TodoTask) (order : List String)
    (h : order.length ≠ tasks.length ∨ ¬ (tasks.map (·.id)).Nodup) :
    reorderTasks tasks order = tasks := by
  rcases h with h | h
  · simp [reorderTasks, h]
  · unfold reorderTasks
    split
    · rfl
    · simp [h]

/-- Witness for the amended C1: a one-element id list over two live tasks. -/
theorem reorder_noop_on_guard_witness :
    reorderTasks [taskA, taskB] ["a"] = [taskA, taskB] :=
  reorder_noop_on_guard _ _ (Or.inl (by decide))

/-- C2: the uniqueness invariant is violated by the code. From the empty
registry, `add a`, `add b`, then `reorder ["b", "x"]` (a same-length list
with a foreign id, which `reorderTasks` does not reject) leaves both live
tasks with priority 1. -/
theorem uniqueness_violated_by_reorder :
    ((runOps [.add draftA "a" 0, .add draftB "b" 0, .reorder ["b", "x"]]).map
        (·.priority) = [1, 1]) ∧
    ¬ ((runOps [.add draftA "a" 0, .add draftB "b" 0, .reorder ["b", "x"]]).map
        (·.priority)).Nodup := by
  decide

/-- C4: adding a task whose normalised priority is `P` increments the
priority of every existing task with priority ≥ `P` and appends the new
task at priority `P`; in particular, adding at `P = 2` over existing
priorities `{1,2,3}` yields existing tasks at `{1,3,4}` and the new task
at 2. -/
theorem add_inserts_at_priority :
    (∀ (tasks : List TodoTask) (draft : TodoDraft) (newId : String) (now : Int)
        (i : Nat) (t : TodoTask), tasks[i]? = some t →
      (addTask tasks draft newId now)[i]? =
        some (if normalizePriority draft.priority ≤ t.priority
              then { t with priority := t.priority + 1 } else t)) ∧
    (∀ (tasks : List TodoTask) (draft : TodoDraft) (newId : String) (now : Int),
      ((addTask tasks draft newId now)[tasks.length]?).map (·.priority) =
        some (normalizePriority draft.priority)) ∧
    (addTask [task1, task2, task3] draftP2 "n" 9).map (·.priority) = [1, 3, 4, 2] := by
  refine ⟨?_, ?_, by decide⟩
  · intro tasks draft newId now i t ht
    have hlen : i < tasks.length := by
      by_contra hge
      rw [List.getElem?_eq_none (by omega)] at ht
      exact Option.noConfusion ht
    simp only [addTask]
    rw [List.getElem?_append]
    have hsl : i < (shiftForInsert tasks (normalizePriority draft.priority)).length := by
      simpa [shiftForInsert] using hlen
    rw [if_pos hsl]
    simp [shiftForInsert, List.getElem?_map, ht]
  · intro tasks draft newId now
    simp only [addTask]
    have hl : (shiftForInsert tasks (normalizePriority draft.priority)).length
        = tasks.length := by simp [shiftForInsert]
    rw [← hl, List.getElem?_concat_length]
    simp

/-- Witness for C4: in the `{1,2,3}` example, the task at priority 2 moves
to 3 and the appended task carries priority 2. -/
theorem add_inserts_at_priority_witness :
    (addTask [task1, task2, task3] draftP2 "n" 9)[1]? =
      some { task2 with priority := 3 } ∧
    ((addTask [task1, task2, task3] draftP2 "n" 9)[3]?).map (·.priority) = some 2 := by
  constructor
  · have h := add_inserts_at_priority.1 [task1, task2, task3] draftP2 "n" 9 1 task2
      (by decide)
    simpa [draftP2, normalizePriority, MIN_PRIORITY, task2] using h
  · have h := add_inserts_at_priority.2.1 [task1, task2, task3] draftP2 "n" 9
    simpa [draftP2, normalizePriority, MIN_PRIORITY] using h


/-- Distinct positions of a list whose image under `f` has no duplicates
carry distinct projected values. -/
lemma map_nodup_ne {α β : Type} (f : α → β) (l : List α) (hnd : (l.map f).Nodup)
    {i j : Nat} {t u : α} (hij : i ≠ j) (ht : l[i]? = some t) (hu : l[j]? = some u) :
    f t ≠ f u := by
  obtain ⟨hi, hti⟩ := List.getElem?_eq_some.1 ht
  obtain ⟨hj, huj⟩ := List.getElem?_eq_some.1 hu
  intro hf
  have hmi : i < (l.map f).length := by simpa using hi
  have hmj : j < (l.map f).length := by simpa using hj
  have hge : (l.map f).get ⟨i, hmi⟩ = (l.map f).get ⟨j, hmj⟩ := by
    simp only [List.get_eq_getElem, List.getElem_map, hti, huj]
    exact hf
  have hfin := hnd.get_inj_iff.mp hge
  exact hij (by simpa using hfin)

/-- In a list with pairwise-distinct ids, `find?` on the id of the task at
position `i` returns exactly that task. -/
lemma find?_eq_of_nodup_id (tasks : List TodoTask)
    (hids : (tasks.map (·.id)).Nodup) (i : Nat) (t : TodoTask)
    (ht : tasks[i]? = some t) :
    tasks.find? (fun x => x.id = t.id) = some t := by
  induction tasks generalizing i with
  | nil => simp at ht
  | cons a rest ih =>
    simp only [List.map_cons, List.nodup_cons] at hids
    rcases i with _ | i
    · simp only [List.getElem?_cons_zero, Option.some_inj] at ht
      subst ht
      simp [List.find?_cons]
    · simp only [List.getElem?_cons_succ] at ht
      have htmem : t ∈ rest := by
        obtain ⟨hlt, hg⟩ := List.getElem?_eq_some.1 ht
        exact hg ▸ List.getElem_mem hlt
      have hmem : t.id ∈ List.map (·.id) rest := List.mem_map_of_mem (·.id) htmem
      have hane : a.id ≠ t.id := by
        intro hcontra
        rw [hcontra] at hids
        exact hids.1 hmem
      rw [List.find?_cons, decide_eq_false hane]
      exact ih hids.2 i ht

/-- The priority rewrite that `shiftForUpdate` applies to tasks other than
the target: decrement inside `(oldP, newP]` when the target moves up,
increment inside `[newP, oldP)` when it moves down, identity outside. -/
def rankShift (oldP newP p : Int) : Int :=
  if oldP < newP then
    (if oldP < p ∧ p ≤ newP then p - 1 else p)
  else
    (if newP ≤ p ∧ p < oldP then p + 1 else p)

/-- `shiftForUpdate` at the target task's own position: the target is left
untouched by the shift pass. -/
lemma shiftForUpdate_getElem_self (tasks : List TodoTask) (patch : TodoPatch)
    (q : Int) (t : TodoTask)
    (hfind : tasks.find? (fun x => x.id = t.id) = some t)
    (hq : patch.priority = some q) (hne : normalizePriority q ≠ t.priority)
    (i : Nat) (ht : tasks[i]? = some t) :
    (shiftForUpdate tasks t.id patch)[i]? = some t := by
  simp only [shiftForUpdate, hfind, hq]
  rw [if_neg hne]
  by_cases hdir : t.priority < normalizePriority q
  · rw [if_pos hdir, List.getElem?_map, ht]
    simp
  · rw [if_neg hdir, List.getElem?_map, ht]
    simp

/-- `shiftForUpdate` at any other task's position: the priority moves by
`rankShift`, nothing else changes. -/
lemma shiftForUpdate_getElem_other (tasks : List TodoTask) (patch : TodoPatch)
    (q : Int) (t : TodoTask)
    (hfind : tasks.find? (fun x => x.id = t.id) = some t)
    (hq : patch.priority = some q) (hne : normalizePriority q ≠ t.priority)
    (j : Nat) (u : TodoTask) (hu : tasks[j]? = some u) (hune : u.id ≠ t.id) :
    (shiftForUpdate tasks t.id patch)[j]? =
      some { u with priority := rankShift t.priority (normalizePriority q) u.priority } := by
  simp only [shiftForUpdate, hfind, hq]
  rw [if_neg hne]
  by_cases hdir : t.priority < normalizePriority q
  · rw [if_pos hdir, List.getElem?_map, hu]
    by_cases hr : t.priority < u.priority ∧ u.priority ≤ normalizePriority q
    · simp [hune, hr, rankShift, if_pos hdir]
    · simp [hune, hr, rankShift, if_pos hdir, task_eta]
  · rw [if_neg hdir, List.getElem?_map, hu]
    by_cases hr : normalizePriority q ≤ u.priority ∧ u.priority < t.priority
    · simp [hune, hr, rankShift, if_neg hdir]
    · simp [hune, hr, rankShift, if_neg hdir, task_eta]


/-- C3: updating an existing task's priority from `oldP` to a different
normalised `newP` sets the target's priority to `newP`; every other task's
priority moves by `rankShift oldP newP` — decremented inside `(oldP, newP]`
when `newP > oldP`, incremented inside `[newP, oldP)` when `newP < oldP`,
unchanged outside the range — and the relative priority order of the other
tasks is preserved. -/
theorem update_rank_change (tasks : List TodoTask) (id : String) (patch : TodoPatch)
    (i : Nat) (t : TodoTask) (q oldP newP : Int)
    (hids : (tasks.map (·.id)).Nodup)
    (hprios : (tasks.map (·.priority)).Nodup)
    (ht : tasks[i]? = some t) (hid : t.id = id)
    (hq : patch.priority = some q) (hnew : normalizePriority q = newP)
    (hold : t.priority = oldP) (hne : newP ≠ oldP) :
    ((updateTask tasks id patch)[i]?).map (·.priority) = some newP ∧
    (∀ j u, j ≠ i → tasks[j]? = some u →
      (updateTask tasks id patch)[j]? =
        some { u with priority := rankShift oldP newP u.priority }) ∧
    (∀ j k u v, j ≠ i → k ≠ i → tasks[j]? = some u → tasks[k]? = some v →
      u.priority < v.priority →
      ∃ u2 v2, (updateTask tasks id patch)[j]? = some u2 ∧
        (updateTask tasks id patch)[k]? = some v2 ∧ u2.priority < v2.priority) := by
  subst hid hnew hold
  have hfind : tasks.find? (fun x => x.id = t.id) = some t :=
    find?_eq_of_nodup_id tasks hids i t ht
  have h1 : ((updateTask tasks t.id patch)[i]?).map (·.priority) =
      some (normalizePriority q) := by
    have hs := shiftForUpdate_getElem_self tasks patch q t hfind hq hne i ht
    unfold updateTask
    rw [List.getElem?_map, hs]
    simp [hq]
  have h2 : ∀ j u, j ≠ i → tasks[j]? = some u →
      (updateTask tasks t.id patch)[j]? =
        some { u with priority := rankShift t.priority (normalizePriority q) u.priority } := by
    intro j u hj hu
    have hune : u.id ≠ t.id := map_nodup_ne (·.id) tasks hids hj hu ht
    have hs := shiftForUpdate_getElem_other tasks patch q t hfind hq hne j u hu hune
    unfold updateTask
    rw [List.getElem?_map, hs]
    simp [hune]
  refine ⟨h1, h2, ?_⟩
  intro j k u v hj hk hu hv huv
  have hu_ne : u.priority ≠ t.priority := map_nodup_ne (·.priority) tasks hprios hj hu ht
  have hv_ne : v.priority ≠ t.priority := map_nodup_ne (·.priority) tasks hprios hk hv ht
  refine ⟨_, _, h2 j u hj hu, h2 k v hk hv, ?_⟩
  show rankShift t.priority (normalizePriority q) u.priority <
    rankShift t.priority (normalizePriority q) v.priority
  unfold rankShift
  split_ifs <;> omega

/-- Witness for C3, the rank-change example of the specification: others at
priorities `{1,2,3,4}` and the target `A5` at 5 moved to 2 — the target
lands at 2, the task at 2 moves to 3 (inside `[2,5)`), the task at 1 is
untouched. -/
theorem update_rank_change_witness :
    ((updateTask [task1, task2, task3, task4, taskA5] "a5"
        { priority := some 2 })[4]?).map (·.priority) = some 2 ∧
    (updateTask [task1, task2, task3, task4, taskA5] "a5"
        { priority := some 2 })[1]? = some { task2 with priority := 3 } ∧
    (updateTask [task1, task2, task3, task4, taskA5] "a5"
        { priority := some 2 })[0]? = some task1 := by
  have h := update_rank_change [task1, task2, task3, task4, taskA5] "a5"
    { priority := some 2 } 4 taskA5 2 5 2 (by decide) (by decide) (by decide)
    (by decide) rfl (by decide) (by decide) (by decide)
  refine ⟨h.1, ?_, ?_⟩
  · have h2 := h.2.1 1 task2 (by decide) (by decide)
    simpa [rankShift, task2] using h2
  · have h0 := h.2.1 0 task1 (by decide) (by decide)
    simpa [rankShift, task1, task_eta] using h0


/-- Taking zero tasks contributes no duration. -/
lemma sumDurBefore_zero (tasks : List TodoTask) : sumDurBefore tasks 0 = 0 := by
  simp [sumDurBefore]

/-- The duration before position `j + 1` in a cons is the head's duration
plus the duration before position `j` in the tail. -/
lemma sumDurBefore_cons_succ (t : TodoTask) (rest : List TodoTask) (j : Nat) :
    sumDurBefore (t :: rest) (j + 1) = getTaskMinutes t + sumDurBefore rest j := by
  simp [sumDurBefore, List.take_succ_cons]

/-- Closed form of the sweep: the segment for the task at position `j` is
computed from the cursor `c` plus the full durations of all earlier tasks,
whether or not those tasks emitted a segment. -/
lemma timelineGo_eq (tasks : List TodoTask) (k : Nat) (c : Int) :
    timelineGo k c tasks = (List.range tasks.length).filterMap fun j =>
      (tasks[j]?).bind fun t => segmentOfTask (k + j) t (c + sumDurBefore tasks j) := by
  induction tasks generalizing k c with
  | nil => simp [timelineGo]
  | cons t rest ih =>
    rw [timelineGo, ih (k + 1) (c + getTaskMinutes t)]
    rw [List.length_cons, List.range_succ_eq_map, List.filterMap_cons, List.filterMap_map]
    have hhead : ((t :: rest)[0]?).bind
        (fun u => segmentOfTask (k + 0) u (c + sumDurBefore (t :: rest) 0)) =
        segmentOfTask k t c := by
      simp [sumDurBefore_zero]
    have htail : List.filterMap (fun j => (rest[j]?).bind fun u =>
          segmentOfTask (k + 1 + j) u ((c + getTaskMinutes t) + sumDurBefore rest j))
          (List.range rest.length) =
        List.filterMap ((fun j => ((t :: rest)[j]?).bind fun u =>
          segmentOfTask (k + j) u (c + sumDurBefore (t :: rest) j)) ∘ (· + 1))
          (List.range rest.length) := by
      apply List.filterMap_congr
      intro j hj
      simp only [Function.comp_apply, List.getElem?_cons_succ, sumDurBefore_cons_succ]
      congr 1
      funext u
      have harg1 : k + 1 + j = k + (j + 1) := by omega
      have harg2 : c + getTaskMinutes t + sumDurBefore rest j =
          c + (getTaskMinutes t + sumDurBefore rest j) := by ring
      rw [harg1, harg2]
    rw [htail] at *
    rw [hhead]
    cases hseg : segmentOfTask k t c <;> simp [htail]


/-- The effective duration is always positive. -/
lemma getTaskMinutes_pos (t : TodoTask) : 0 < getTaskMinutes t := by
  unfold getTaskMinutes DEFAULT_REST_MINUTES DEFAULT_WORK_MINUTES
  rcases hm : t.estimateMinutes with _ | m <;> simp only [hm] <;> split_ifs <;> omega

/-- Unpacking an emitted segment: the visibility conditions held and the
fields carry the clipped percentages. -/
lemma segmentOfTask_eq_some {j : Nat} {t : TodoTask} {start : Int}
    {seg : TimelineSegment} (h : segmentOfTask j t start = some seg) :
    0 < max 0 (min dayMinutes (start + getTaskMinutes t)) -
        max 0 (min dayMinutes start) ∧
    start < dayMinutes ∧
    seg.left = ((max 0 (min dayMinutes start) : Int) : Rat) / (dayMinutes : Rat) * 100 ∧
    seg.width = (((max 0 (min dayMinutes (start + getTaskMinutes t)) -
        max 0 (min dayMinutes start)) : Int) : Rat) / (dayMinutes : Rat) * 100 ∧
    seg.durationMinutes = getTaskMinutes t ∧ seg.id = t.id := by
  simp only [segmentOfTask] at h
  by_cases hc : 0 < max 0 (min dayMinutes (start + getTaskMinutes t)) -
      max 0 (min dayMinutes start) ∧ start < dayMinutes
  · rw [if_pos hc] at h
    obtain ⟨hv, hs⟩ := hc
    injection h with h
    subst h
    exact ⟨hv, hs, rfl, rfl, rfl, rfl⟩
  · rw [if_neg hc] at h
    exact absurd h (by simp)


/-- C6: every emitted segment belongs to some task, is emitted only when
its clipped length is positive and its unclipped start is before minute
1440, and carries `left = clippedStart / 1440 * 100` and
`width = visibleMinutes / 1440 * 100`, the start being the offset plus the
durations of all earlier tasks; the `480` + durations `60, 15, 60` example
produces exactly the segments `[480, 540)`, `[540, 555)`, `[555, 615)`. -/
theorem timeline_projection :
    (∀ (tasks : List TodoTask) (s : Int) (seg : TimelineSegment),
      seg ∈ buildTimelineSegments tasks s →
      ∃ j t, tasks[j]? = some t ∧
        s + sumDurBefore tasks j < dayMinutes ∧
        0 < max 0 (min dayMinutes (s + sumDurBefore tasks j + getTaskMinutes t)) -
            max 0 (min dayMinutes (s + sumDurBefore tasks j)) ∧
        seg.left = ((max 0 (min dayMinutes (s + sumDurBefore tasks j)) : Int) : Rat) /
            (dayMinutes : Rat) * 100 ∧
        seg.width = (((max 0 (min dayMinutes (s + sumDurBefore tasks j + getTaskMinutes t)) -
            max 0 (min dayMinutes (s + sumDurBefore tasks j))) : Int) : Rat) /
            (dayMinutes : Rat) * 100 ∧
        seg.durationMinutes = getTaskMinutes t) ∧
    buildTimelineSegments [tlW1, tlR, tlW2] 480 = [tlSeg1, tlSeg2, tlSeg3] := by
  constructor
  · intro tasks s seg hmem
    rw [buildTimelineSegments, timelineGo_eq] at hmem
    obtain ⟨j, hj, hbind⟩ := List.mem_filterMap.1 hmem
    rcases hjt : tasks[j]? with _ | t
    · rw [hjt] at hbind
      simp at hbind
    · rw [hjt] at hbind
      simp only [Option.some_bind] at hbind
      have hfacts := segmentOfTask_eq_some hbind
      exact ⟨j, t, hjt, hfacts.2.1, hfacts.1, hfacts.2.2.1, hfacts.2.2.2.1,
        hfacts.2.2.2.2.1⟩
  · rfl

/-- Witness for C6: the first emitted segment of the example belongs to a
task of the list and satisfies the emission conditions and formulas. -/
theorem timeline_projection_witness :
    ∃ j t, [tlW1, tlR, tlW2][j]? = some t ∧
      480 + sumDurBefore [tlW1, tlR, tlW2] j < dayMinutes ∧
      0 < max 0 (min dayMinutes (480 + sumDurBefore [tlW1, tlR, tlW2] j +
          getTaskMinutes t)) -
          max 0 (min dayMinutes (480 + sumDurBefore [tlW1, tlR, tlW2] j)) ∧
      tlSeg1.left = ((max 0 (min dayMinutes (480 + sumDurBefore [tlW1, tlR, tlW2] j))
          : Int) : Rat) / (dayMinutes : Rat) * 100 ∧
      tlSeg1.width = (((max 0 (min dayMinutes (480 + sumDurBefore [tlW1, tlR, tlW2] j +
          getTaskMinutes t)) -
          max 0 (min dayMinutes (480 + sumDurBefore [tlW1, tlR, tlW2] j))) : Int) : Rat) /
          (dayMinutes : Rat) * 100 ∧
      tlSeg1.durationMinutes = getTaskMinutes t := by
  apply timeline_projection.1 [tlW1, tlR, tlW2] 480 tlSeg1
  rw [timeline_projection.2]
  exact List.mem_cons_self _ _

/-- C7: the sweep equals its closed form, in which the start handed to the
task at position `j` is the offset plus the full unclipped durations of all
earlier tasks (the cursor advances whether or not a segment was emitted);
a task whose unclipped start is at or past minute 1440 emits nothing; a
task whose start is before 1440 but whose end passes it emits a segment
truncated at 1440 (its right edge sits at 100%). -/
theorem timeline_clipping :
    (∀ (tasks : List TodoTask) (s : Int),
      buildTimelineSegments tasks s = (List.range tasks.length).filterMap fun j =>
        (tasks[j]?).bind fun t => segmentOfTask j t (s + sumDurBefore tasks j)) ∧
    (∀ (j : Nat) (t : TodoTask) (s : Int), dayMinutes ≤ s →
      segmentOfTask j t s = none) ∧
    (∀ (j : Nat) (t : TodoTask) (s : Int), s < dayMinutes →
      dayMinutes < s + getTaskMinutes t →
      ∃ seg, segmentOfTask j t s = some seg ∧ seg.left + seg.width = 100) := by
  refine ⟨?_, ?_, ?_⟩
  · intro tasks s
    rw [buildTimelineSegments, timelineGo_eq]
    simp
  · intro j t s h
    have hcond : ¬ (0 < max 0 (min dayMinutes (s + getTaskMinutes t)) -
        max 0 (min dayMinutes s) ∧ s < dayMinutes) := by
      rintro ⟨h1, h2⟩
      omega
    simp only [segmentOfTask]
    rw [if_neg hcond]
  · intro j t s h1 h2
    have hdm_pos : (0 : Int) < dayMinutes := by decide
    have hend : min dayMinutes (s + getTaskMinutes t) = dayMinutes :=
      min_eq_left (le_of_lt h2)
    have hstart : min dayMinutes s = s := min_eq_right (le_of_lt h1)
    have hmaxd : max 0 dayMinutes = dayMinutes := max_eq_right (le_of_lt hdm_pos)
    have hclip_lt : max 0 s < dayMinutes := by
      rcases le_or_lt s 0 with hs | hs
      · rw [max_eq_left hs]
        exact hdm_pos
      · rw [max_eq_right (le_of_lt hs)]
        exact h1
    have hcond : 0 < max 0 (min dayMinutes (s + getTaskMinutes t)) -
        max 0 (min dayMinutes s) ∧ s < dayMinutes := by
      rw [hend, hstart, hmaxd]
      exact ⟨sub_pos.mpr hclip_lt, h1⟩
    simp only [segmentOfTask]
    rw [if_pos hcond]
    refine ⟨_, rfl, ?_⟩
    show ((max 0 (min dayMinutes s) : Int) : Rat) / (dayMinutes : Rat) * 100 +
      (((max 0 (min dayMinutes (s + getTaskMinutes t)) -
        max 0 (min dayMinutes s)) : Int) : Rat) / (dayMinutes : Rat) * 100 = 100
    rw [hend, hstart, hmaxd]
    have hne : ((dayMinutes : Int) : Rat) ≠ 0 := by
      simp only [dayMinutes]
      norm_num
    have hgen : ∀ M D : Rat, D ≠ 0 → M / D * 100 + (D - M) / D * 100 = 100 := by
      intro M D hD
      field_simp
      ring
    push_cast
    exact hgen _ _ hne

/-- Witness for C7: from start 1500 no segment is emitted; from start 1400
the 60-minute task is truncated at minute 1440. -/
theorem timeline_clipping_witness :
    segmentOfTask 0 tlW1 1500 = none ∧
    ∃ seg, segmentOfTask 0 tlW1 1400 = some seg ∧ seg.left + seg.width = 100 := by
  constructor
  · exact timeline_clipping.2.1 0 tlW1 1500 (by decide)
  · exact timeline_clipping.2.2 0 tlW1 1400 (by decide) (by decide)


/-- `setPriorityById` rewrites only the matching id, position by position. -/
lemma setPriorityById_getElem (acc : List TodoTask) (id : String) (p : Int)
    (j : Nat) (t : TodoTask) (h : acc[j]? = some t) :
    (setPriorityById acc id p)[j]? =
      some (if t.id = id then { t with priority := p } else t) := by
  simp only [setPriorityById, List.getElem?_map, h, Option.map_some']

/-- `applyOrder` preserves the length of the task list. -/
lemma applyOrder_length (ord : List String) : ∀ (k : Nat) (acc : List TodoTask),
    (applyOrder k acc ord).length = acc.length := by
  induction ord with
  | nil => intro k acc; rfl
  | cons s rest ih =>
    intro k acc
    simp only [applyOrder]
    rw [ih]
    simp [setPriorityById]

/-- A task whose id never occurs in the order list is untouched by
`applyOrder`. -/
lemma applyOrder_getElem_not_mem (ord : List String) : ∀ (k : Nat)
    (acc : List TodoTask) (j : Nat) (t : TodoTask), acc[j]? = some t →
    t.id ∉ ord → (applyOrder k acc ord)[j]? = some t := by
  induction ord with
  | nil => intro k acc j t h _; exact h
  | cons s rest ih =>
    intro k acc j t h hmem
    simp only [applyOrder]
    have hne : t.id ≠ s := fun hc => hmem (hc ▸ List.mem_cons_self s rest)
    have h2 := setPriorityById_getElem acc s ((k : Int) + 1) j t h
    rw [if_neg hne] at h2
    exact ih (k + 1) _ j t h2 (fun hc => hmem (List.mem_cons_of_mem s hc))

/-- A task whose id occurs exactly once in the order list, at position `i`,
ends with priority `k + i + 1` where `k` is the loop's starting index. -/
lemma applyOrder_getElem_hit (ord : List String) : ∀ (k : Nat)
    (acc : List TodoTask) (j : Nat) (t : TodoTask) (i : Nat),
    acc[j]? = some t → ord[i]? = some t.id →
    (∀ i2 s2, ord[i2]? = some s2 → s2 = t.id → i2 = i) →
    (applyOrder k acc ord)[j]? =
      some { t with priority := ((k + i : Nat) : Int) + 1 } := by
  induction ord with
  | nil => intro k acc j t i _ hi _; simp at hi
  | cons s rest ih =>
    intro k acc j t i h hi huniq
    simp only [applyOrder]
    rcases i with _ | i
    · simp only [List.getElem?_cons_zero, Option.some_inj] at hi
      have h2 := setPriorityById_getElem acc s ((k : Int) + 1) j t h
      rw [if_pos hi.symm] at h2
      have hnotm : t.id ∉ rest := by
        intro hmem
        obtain ⟨i2, hi2⟩ := List.mem_iff_getElem?.1 hmem
        have hz := huniq (i2 + 1) t.id (by simpa using hi2) rfl
        omega
      have hres := applyOrder_getElem_not_mem rest (k + 1) _ j _ h2 hnotm
      rw [hres]
      simp
    · simp only [List.getElem?_cons_succ] at hi
      have hs_ne : s ≠ t.id := by
        intro hc
        have hz := huniq 0 s (by simp) hc
        omega
      have h2 := setPriorityById_getElem acc s ((k : Int) + 1) j t h
      rw [if_neg (fun hc => hs_ne hc.symm)] at h2
      have huniq2 : ∀ i2 s2, rest[i2]? = some s2 → s2 = t.id → i2 = i := by
        intro i2 s2 hi2 hs2
        have hz := huniq (i2 + 1) s2 (by simpa using hi2) hs2
        omega
      have hres := ih (k + 1) _ j t i h2 hi huniq2
      rw [hres]
      rw [show k + (i + 1) = k + 1 + i by omega]

/-- Folding `insertById` over tasks with pairwise-distinct ids appends each
task in order. -/
lemma buildById_go (tasks : List TodoTask) : ∀ acc : List TodoTask,
    ((acc ++ tasks).map (·.id)).Nodup → tasks.foldl insertById acc = acc ++ tasks := by
  induction tasks with
  | nil => intro acc _; simp
  | cons t rest ih =>
    intro acc hnd
    rw [List.foldl_cons]
    have hdisj : t.id ∉ acc.map (·.id) := by
      intro hmem
      rw [List.map_append, List.nodup_append] at hnd
      exact hnd.2.2 hmem (by simp)
    have hany : acc.any (fun x => x.id = t.id) = false := by
      rw [List.any_eq_false]
      intro x hx heq
      exact hdisj (by
        simp only [decide_eq_true_eq] at heq
        exact heq ▸ List.mem_map_of_mem (·.id) hx)
    have hins : insertById acc t = acc ++ [t] := by
      unfold insertById
      simp [hany]
    rw [hins, ih (acc ++ [t]) (by simpa using hnd)]
    simp

/-- `buildById` is the identity on a task list with pairwise-distinct ids. -/
lemma buildById_eq (tasks : List TodoTask) (hids : (tasks.map (·.id)).Nodup) :
    buildById tasks = tasks := by
  have h := buildById_go tasks [] (by simpa using hids)
  simpa [buildById] using h

/-- In a duplicate-free list an element sits at one position only. -/
lemma nodup_getElem?_unique {α : Type} (l : List α) (hnd : l.Nodup) {i j : Nat}
    {a : α} (hi : l[i]? = some a) (hj : l[j]? = some a) : i = j := by
  obtain ⟨hi1, hi2⟩ := List.getElem?_eq_some.1 hi
  obtain ⟨hj1, hj2⟩ := List.getElem?_eq_some.1 hj
  exact hnd.getElem_inj_iff.mp (by rw [hi2, hj2])


/-- C8: load-time normalization leaves the set unchanged when no two tasks
share a priority; otherwise it reassigns each task the position it takes in
the `(priority, title, createdAt)` sort, plus one, so every rank `1..N` is
occupied; restoring `B` and `A` both at priority 1 yields `A` at 1 and `B`
at 2. -/
theorem load_normalization :
    (∀ tasks : List TodoTask, (tasks.map (·.priority)).Nodup →
      normalizePrioritiesIfNeeded tasks = tasks) ∧
    (∀ tasks : List TodoTask, (tasks.map (·.id)).Nodup →
      ¬ (tasks.map (·.priority)).Nodup →
      (∀ (i : Nat) (o : TodoTask) (j : Nat),
        (tasks.mergeSort taskLE)[i]? = some o → tasks[j]? = some o →
        (normalizePrioritiesIfNeeded tasks)[j]? =
          some { o with priority := (i : Int) + 1 }) ∧
      (∀ i : Nat, i < tasks.length → ∃ (j : Nat) (o : TodoTask),
        (normalizePrioritiesIfNeeded tasks)[j]? = some o ∧
        o.priority = (i : Int) + 1)) ∧
    normalizePrioritiesIfNeeded [taskDupB, taskDupA] =
      [{ taskDupB with priority := 2 }, { taskDupA with priority := 1 }] := by
  refine ⟨?_, ?_, ?_⟩
  · intro tasks h
    simp [normalizePrioritiesIfNeeded, h]
  · intro tasks hids hdup
    have hperm := List.mergeSort_perm tasks taskLE
    have hids_ord : ((tasks.mergeSort taskLE).map (·.id)).Nodup :=
      ((hperm.map (·.id)).nodup_iff).mpr hids
    have hmain : ∀ (i : Nat) (o : TodoTask) (j : Nat),
        (tasks.mergeSort taskLE)[i]? = some o → tasks[j]? = some o →
        (normalizePrioritiesIfNeeded tasks)[j]? =
          some { o with priority := (i : Int) + 1 } := by
      intro i o j hio hjo
      rw [normalizePrioritiesIfNeeded, if_neg hdup, buildById_eq tasks hids]
      have hhit := applyOrder_getElem_hit ((tasks.mergeSort taskLE).map (·.id)) 0 tasks
        j o i hjo
        (by rw [List.getElem?_map, hio, Option.map_some'])
        (by
          intro i2 s2 hi2 hs2
          subst hs2
          exact nodup_getElem?_unique _ hids_ord hi2
            (by rw [List.getElem?_map, hio, Option.map_some']))
      rw [hhit]
      simp
    refine ⟨hmain, ?_⟩
    intro i hi
    have hlen : (tasks.mergeSort taskLE).length = tasks.length := hperm.length_eq
    have hilt : i < (tasks.mergeSort taskLE).length := by omega
    have hmem : (tasks.mergeSort taskLE)[i] ∈ tasks :=
      hperm.mem_iff.mp (List.getElem_mem hilt)
    obtain ⟨j, hj⟩ := List.mem_iff_getElem?.1 hmem
    exact ⟨j, _, hmain i _ j (List.getElem?_eq_getElem hilt) hj, rfl⟩
  · simp [normalizePrioritiesIfNeeded, taskDupA, taskDupB, List.mergeSort, buildById,
      insertById, applyOrder, setPriorityById, taskLE, strLt, charsLt]


/-- Witness for C8: a duplicate-free set (`a`, `b`) passes through
unchanged; in the duplicate example, the task `A` (stored second) receives
priority 1, the head of the sorted order. -/
theorem load_normalization_witness :
    normalizePrioritiesIfNeeded [taskA, taskB] = [taskA, taskB] ∧
    (normalizePrioritiesIfNeeded [taskDupB, taskDupA])[1]? =
      some { taskDupA with priority := 1 } := by
  constructor
  · exact load_normalization.1 [taskA, taskB] (by decide)
  · have h := (load_normalization.2.1 [taskDupB, taskDupA] (by decide) (by decide)).1
      0 taskDupA 1
      (by simp [List.mergeSort, taskDupA, taskDupB, taskLE, strLt, charsLt])
      (by decide)
    simpa using h

end Todo
